import Mathlib

/-!
Verification of the riskdash incident dashboard (src/db_utils.py, src/app.py).

The incidents table is modelled as a list of `Incident` records in insertion
order.  Timestamps are modelled as integers counting whole seconds; at this
granularity Python's `int((end - start).total_seconds())` is exactly
`end - start`, so durations are embedded as exact integer differences.

The schema created by `init_db` (db_utils.py lines 47-59) declares
`job_name`, `status_at_incident`, `detection_time` and `response_start_time`
as NOT NULL and `incident_id` as PRIMARY KEY.  The first three of those are
non-optional fields of the record type; the NOT NULL constraint on
`response_start_time` and the PRIMARY KEY uniqueness are enforced by
`tryInsert`, mirroring DuckDB's behaviour of raising a ConstraintException
(which the Python code catches) when an INSERT violates them.
-/

namespace RiskDash

/-- Row of the `incidents` table (db_utils.py `init_db`).  Nullable columns are
`Option`; NOT NULL columns are plain fields. -/
structure Incident where
  incident_id : Nat
  job_name : String
  status_at_incident : String
  detection_time : Int
  response_start_time : Option Int
  responder_name : Option String
  priority : Option String
  resolution_time : Option Int
  resolution_duration_seconds : Option Int
deriving DecidableEq

/-- The incidents table, in insertion order. -/
abbrev Store := List Incident

/-- SQL `COALESCE(MAX(incident_id), 0)` (db_utils.py line 134, app.py line 402). -/
def maxId (s : Store) : Nat :=
  s.foldl (fun m r => max m r.incident_id) 0

/-- Predicate of the SQL filter `job_name = ? AND resolution_time IS NULL`. -/
def isOpenFor (job : String) (r : Incident) : Bool :=
  r.job_name == job && r.resolution_time.isNone

/-- Number of open incident rows for a given job. -/
def countOpen (s : Store) (job : String) : Nat :=
  (s.filter (isOpenFor job)).length

/-- Python `str.lower()` restricted to ASCII case mapping, implemented by
structural recursion over the characters so that it evaluates in the
kernel. -/
def pyLower (s : String) : String := ⟨s.data.map Char.toLower⟩

/-- Python `str.strip()`: remove leading and trailing whitespace. -/
def pyStrip (s : String) : String :=
  ⟨((s.data.dropWhile Char.isWhitespace).reverse.dropWhile Char.isWhitespace).reverse⟩

/-- Attempt to INSERT a row, enforcing the schema constraints of `init_db`:
PRIMARY KEY uniqueness of `incident_id` and NOT NULL on
`response_start_time`.  `none` models DuckDB raising a ConstraintException
(the row is not stored); `some` is the successful insert. -/
def tryInsert (s : Store) (r : Incident) : Option Store :=
  if r.response_start_time.isSome && s.all (fun q => q.incident_id != r.incident_id) then
    some (s ++ [r])
  else
    none

/-- Job names having an open incident; this is the key set of the dictionary
built by `get_active_incidents` (db_utils.py lines 240-273). -/
def activeJobs (s : Store) : List String :=
  (s.filter (fun r => r.resolution_time.isNone)).map (fun r => r.job_name)

/-- db_utils.py `log_incident_start` (lines 103-175): if an open incident
exists for the job, return its id without mutating; otherwise insert a fresh
row with id `MAX+1`, `detection_time = response_start_time = now`, and the
given responder and priority.  Returns -1 if the insert fails.
`startRow` is the VALUES tuple of the INSERT (db_utils.py lines 139-154). -/
def startRow (s : Store) (job status responder priority : String) (t : Int) :
    Incident :=
  { incident_id := maxId s + 1, job_name := job, status_at_incident := status,
    detection_time := t, response_start_time := some t,
    responder_name := some responder, priority := some priority,
    resolution_time := none, resolution_duration_seconds := none }

def log_incident_start (s : Store) (job status responder priority : String)
    (t : Int) : Int × Store :=
  match s.find? (isOpenFor job) with
  | some e => ((e.incident_id : Int), s)
  | none =>
    match tryInsert s (startRow s job status responder priority t) with
    | some s2 => ((maxId s + 1 : Nat), s2)
    | none => (-1, s)

/-- Effect on one row of the `UPDATE incidents SET resolution_time = ?,
resolution_duration_seconds = ? WHERE incident_id = ?` of
`log_incident_resolve` (db_utils.py lines 202-209).  The enclosing function
below finds the row with the
given id and `resolution_time IS NULL`; if found and its
`response_start_time` is non-null, set `resolution_time` and
`resolution_duration_seconds = end - start` on the rows matching the id and
return True; otherwise (not found, already resolved, or a null start time,
which in Python raises inside the `try` and is caught) return False with the
store unchanged. -/
def resolveRow (id : Nat) (tEnd t0 : Int) (q : Incident) : Incident :=
  if q.incident_id == id then
    { q with resolution_time := some tEnd,
             resolution_duration_seconds := some (tEnd - t0) }
  else q

/-- db_utils.py `log_incident_resolve` driver (lines 178-237), with
`resolveRow` as the SET clause of its UPDATE (lines 202-209). -/
def log_incident_resolve (s : Store) (id : Nat) (tEnd : Int) : Bool × Store :=
  match s.find? (fun q => q.incident_id == id && q.resolution_time.isNone) with
  | some e =>
    match e.response_start_time with
    | some t0 => (true, s.map (resolveRow id tEnd t0))
    | none => (false, s)
  | none => (false, s)

/-- Effect on one row of the `UPDATE incidents SET priority = ?
WHERE incident_id = ?` of the priority form (app.py lines 721-733). -/
def setPriorityRow (id : Nat) (p : String) (q : Incident) : Incident :=
  if q.incident_id == id then { q with priority := some p } else q

/-- app.py priority form submit (lines 717-742): a bare
`UPDATE incidents SET priority = ? WHERE incident_id = ?` with no check of
`resolution_time`. -/
def update_priority (s : Store) (id : Nat) (p : String) : Store :=
  s.map (setPriorityRow id p)

/-- Row with the greatest `detection_time` among open rows for the job, i.e.
the SQL `ORDER BY detection_time DESC LIMIT 1` of app.py lines 376-386
(only the selected `detection_time` column is modelled). -/
def latestOpenDetection (s : Store) (job : String) : Option Int :=
  match (s.filter (isOpenFor job)).map (fun r => r.detection_time) with
  | [] => none
  | d :: ds => some (ds.foldl max d)

/-- VALUES tuple of the INSERT inside app.py `check_slow_response`
(lines 405-411), used by the driver below (lines 356-422).  There `cached` is the store
snapshot behind the module-level `active_incidents` dictionary (populated
from `get_cached_active_incidents`, a cache of up to 5 seconds of staleness),
while `s` is the live store the function queries directly.  The else-branch
INSERT (lines 405-411) supplies no `response_start_time`, so `tryInsert`
fails against the schema's NOT NULL constraint; the Python `except` swallows
the error and the function returns False. -/
def slowRow (s : Store) (job status : String) (now : Int) : Incident :=
  { incident_id := maxId s + 1, job_name := job,
    status_at_incident := pyStrip status, detection_time := now,
    response_start_time := none, responder_name := none,
    priority := none, resolution_time := none,
    resolution_duration_seconds := none }

/-- Driver of app.py `check_slow_response`; see the comment above `slowRow`. -/
def check_slow_response (cached s : Store) (job status : String) (now : Int) :
    Bool × Store :=
  if pyLower (pyStrip status) == "critical" || pyLower (pyStrip status) == "error" then
    if (activeJobs cached).contains job then
      (false, s)
    else
      match latestOpenDetection s job with
      | some d => (decide (now - d > 20), s)
      | none =>
        match tryInsert s (slowRow s job status now) with
        | some s2 => (false, s2)
        | none => (false, s)
  else
    (false, s)

/-- Job entry of the API feed, as consumed by `rank_jobs`: the `name` and
`status` keys of each job dictionary. -/
structure Job where
  name : String
  status : String
deriving DecidableEq

/-- app.py line 120: `STATUS_ORDER = {"Critical": 0, "Error": 1, "Warning": 2,
"Log": 3}`, accessed with `.get(status, 99)`. -/
def STATUS_ORDER (st : String) : Nat :=
  if st = "Critical" then 0
  else if st = "Error" then 1
  else if st = "Warning" then 2
  else if st = "Log" then 3
  else 99

/-- Sort key used by `rank_jobs` for non-responding jobs. -/
def jobKey (j : Job) : Nat := STATUS_ORDER j.status

/-- Insertion step of a stable ascending sort by `jobKey`: the new element is
placed before the first element whose key is not smaller, so elements with
equal keys keep their input order, matching Python's stable `sorted`. -/
def insort (x : Job) : List Job → List Job
  | [] => [x]
  | y :: ys => if jobKey y < jobKey x then y :: insort x ys else x :: y :: ys

/-- Stable ascending sort by `jobKey`, modelling Python's
`sorted(jobs, key=lambda x: STATUS_ORDER.get(x.get("status", "Log"), 99))`. -/
def sortJobs (l : List Job) : List Job :=
  l.foldr insort []

/-- app.py `rank_jobs` (lines 296-329): jobs whose name is in the active
incident set first, in input order, followed by the remaining jobs stably
sorted ascending by severity rank. -/
def rank_jobs (s : Store) (jobs : List Job) : List Job :=
  jobs.filter (fun j => (activeJobs s).contains j.name) ++
    sortJobs (jobs.filter (fun j => !(activeJobs s).contains j.name))

/-- Store-mutating entry points of the program. -/
inductive Op where
  | start (job status responder priority : String) (t : Int)
  | resolve (id : Nat) (t : Int)
  | setPriority (id : Nat) (p : String)
  | slowCheck (cached : Store) (job status : String) (t : Int)

/-- Effect of one operation on the incidents table. -/
def applyOp (s : Store) : Op → Store
  | .start job status responder priority t =>
      (log_incident_start s job status responder priority t).2
  | .resolve id t => (log_incident_resolve s id t).2
  | .setPriority id p => update_priority s id p
  | .slowCheck cached job status t => (check_slow_response cached s job status t).2

/-- Stores reachable from the empty table by the program's operations. -/
inductive Reachable : Store → Prop where
  | nil : Reachable []
  | step (s : Store) (op : Op) : Reachable s → Reachable (applyOp s op)

/-- All rows of the store carry pairwise distinct incident ids. -/
def distinctIds (s : Store) : Prop :=
  s.Pairwise (fun a b => a.incident_id ≠ b.incident_id)

/-- Invariant of reachable stores: distinct ids, every row claimed at
detection time, open-incident uniqueness per job, and duration consistency. -/
def Inv (s : Store) : Prop :=
  distinctIds s ∧
  (∀ r ∈ s, r.response_start_time = some r.detection_time ∧
    r.responder_name.isSome = true ∧ r.priority.isSome = true) ∧
  (∀ job, countOpen s job ≤ 1) ∧
  (∀ r ∈ s, ∀ te t0 : Int, r.resolution_time = some te →
    r.response_start_time = some t0 →
    r.resolution_duration_seconds = some (te - t0))

/-- Concrete single-incident store: the result of responding to job "J"
(status Critical, responder Alice, priority P1) at time 0 on an empty table. -/
def row1 : Incident :=
  { incident_id := 1, job_name := "J", status_at_incident := "Critical",
    detection_time := 0, response_start_time := some 0,
    responder_name := some "Alice", priority := some "P1",
    resolution_time := none, resolution_duration_seconds := none }

def store1 : Store := [row1]

/-- The store after additionally resolving incident 1 at time 8. -/
def row1r : Incident :=
  { incident_id := 1, job_name := "J", status_at_incident := "Critical",
    detection_time := 0, response_start_time := some 0,
    responder_name := some "Alice", priority := some "P1",
    resolution_time := some 8, resolution_duration_seconds := some 8 }

def store1r : Store := [row1r]

/-- Schema-valid store holding one open, unclaimed incident for job "J"
detected at time 0 (no responder assigned). -/
def slowStore : Store :=
  [{ incident_id := 1, job_name := "J", status_at_incident := "Critical",
     detection_time := 0, response_start_time := some 0,
     responder_name := none, priority := none,
     resolution_time := none, resolution_duration_seconds := none }]

def jobA : Job := { name := "A", status := "Warning" }

def jobB : Job := { name := "B", status := "Critical" }

def jobC : Job := { name := "C", status := "Critical" }

def jobD : Job := { name := "D", status := "Log" }

/-- Store in which job "C" has an open (claimed) incident. -/
def storeC : Store :=
  [{ incident_id := 1, job_name := "C", status_at_incident := "Critical",
     detection_time := 0, response_start_time := some 0,
     responder_name := some "Alice", priority := some "P1",
     resolution_time := none, resolution_duration_seconds := none }]

/-- Two jobs of equal severity whose names are in reverse alphabetical order. -/
def jobW1 : Job := { name := "B", status := "Warning" }

def jobW2 : Job := { name := "A", status := "Warning" }

/-- A store whose only incident is already resolved. -/
def rowResolved : Incident :=
  { incident_id := 1, job_name := "J", status_at_incident := "Critical",
    detection_time := 0, response_start_time := some 0,
    responder_name := some "Alice", priority := some "P1",
    resolution_time := some 10, resolution_duration_seconds := some 10 }

/-- Helper: a fold of `max` never drops below its initial accumulator. -/
lemma le_foldl_max (s : List Incident) :
    ∀ a : Nat, a ≤ s.foldl (fun m r => max m r.incident_id) a := by
  induction s with
  | nil => intro a; exact Nat.le_refl a
  | cons x xs ih =>
    intro a
    exact Nat.le_trans (Nat.le_max_left a x.incident_id) (ih (max a x.incident_id))

/-- Helper: every member's id is bounded by the fold of `max`. -/
lemma mem_le_foldl_max {r : Incident} {s : List Incident} (hr : r ∈ s) :
    ∀ a : Nat, r.incident_id ≤ s.foldl (fun m r => max m r.incident_id) a := by
  induction s with
  | nil => cases hr
  | cons x xs ih =>
    intro a
    rcases List.mem_cons.mp hr with h | h
    · subst h
      exact Nat.le_trans (Nat.le_max_right a r.incident_id)
        (le_foldl_max xs (max a r.incident_id))
    · exact ih h (max a x.incident_id)

/-- Every id present in the store is at most `maxId`. -/
lemma mem_le_maxId {r : Incident} {s : Store} (hr : r ∈ s) :
    r.incident_id ≤ maxId s :=
  mem_le_foldl_max hr 0

/-- An insert of a schema-valid row with a fresh id succeeds. -/
lemma tryInsert_of_fresh {s : Store} {r : Incident}
    (h1 : r.response_start_time.isSome = true)
    (h2 : ∀ q ∈ s, q.incident_id ≠ r.incident_id) :
    tryInsert s r = some (s ++ [r]) := by
  have hall : s.all (fun q => q.incident_id != r.incident_id) = true := by
    simp only [List.all_eq_true, ne_eq, bne_iff_ne]
    exact h2
  simp [tryInsert, h1, hall]

/-- Members of a list of length at most one coincide. -/
lemma eq_of_mem_of_length_le_one {α : Type} {l : List α} {a b : α}
    (h : l.length ≤ 1) (ha : a ∈ l) (hb : b ∈ l) : a = b := by
  match l with
  | [] => cases ha
  | [x] =>
    rw [List.mem_singleton] at ha hb
    rw [ha, hb]
  | x :: y :: tl => simp [Nat.succ_le_succ_iff] at h

/-- Filtering with a stronger predicate yields at most as many elements. -/
lemma length_filter_le_of_imp {α : Type} {p q : α → Bool} :
    ∀ l : List α, (∀ a ∈ l, p a = true → q a = true) →
      (l.filter p).length ≤ (l.filter q).length := by
  intro l
  induction l with
  | nil => intro _; exact Nat.le_refl 0
  | cons x xs ih =>
    intro h
    have ih2 := ih (fun a ha => h a (List.mem_cons_of_mem _ ha))
    by_cases hp : p x = true
    · rw [List.filter_cons_of_pos hp, List.filter_cons_of_pos (h x (List.mem_cons_self x xs) hp)]
      exact Nat.succ_le_succ ih2
    · rw [List.filter_cons_of_neg (by simpa using hp)]
      by_cases hq : q x = true
      · rw [List.filter_cons_of_pos hq]
        exact Nat.le_succ_of_le ih2
      · rw [List.filter_cons_of_neg (by simpa using hq)]
        exact ih2

/-- With distinct ids, two member rows sharing an id are the same row. -/
lemma eq_of_mem_of_id_eq {s : Store} (hd : distinctIds s) {a b : Incident}
    (ha : a ∈ s) (hb : b ∈ s) (hid : a.incident_id = b.incident_id) : a = b := by
  by_contra hne
  have hsymm : Symmetric (fun a b : Incident => a.incident_id ≠ b.incident_id) :=
    fun x y h e => h e.symm
  exact hd.forall hsymm ha hb hne hid

@[simp] lemma resolveRow_incident_id (id : Nat) (t t0 : Int) (q : Incident) :
    (resolveRow id t t0 q).incident_id = q.incident_id := by
  unfold resolveRow; split <;> rfl

@[simp] lemma resolveRow_job_name (id : Nat) (t t0 : Int) (q : Incident) :
    (resolveRow id t t0 q).job_name = q.job_name := by
  unfold resolveRow; split <;> rfl

@[simp] lemma resolveRow_response_start (id : Nat) (t t0 : Int) (q : Incident) :
    (resolveRow id t t0 q).response_start_time = q.response_start_time := by
  unfold resolveRow; split <;> rfl

@[simp] lemma resolveRow_detection (id : Nat) (t t0 : Int) (q : Incident) :
    (resolveRow id t t0 q).detection_time = q.detection_time := by
  unfold resolveRow; split <;> rfl

@[simp] lemma resolveRow_responder (id : Nat) (t t0 : Int) (q : Incident) :
    (resolveRow id t t0 q).responder_name = q.responder_name := by
  unfold resolveRow; split <;> rfl

@[simp] lemma resolveRow_priority (id : Nat) (t t0 : Int) (q : Incident) :
    (resolveRow id t t0 q).priority = q.priority := by
  unfold resolveRow; split <;> rfl

@[simp] lemma setPriorityRow_incident_id (id : Nat) (p : String) (q : Incident) :
    (setPriorityRow id p q).incident_id = q.incident_id := by
  unfold setPriorityRow; split <;> rfl

@[simp] lemma setPriorityRow_job_name (id : Nat) (p : String) (q : Incident) :
    (setPriorityRow id p q).job_name = q.job_name := by
  unfold setPriorityRow; split <;> rfl

@[simp] lemma setPriorityRow_resolution (id : Nat) (p : String) (q : Incident) :
    (setPriorityRow id p q).resolution_time = q.resolution_time := by
  unfold setPriorityRow; split <;> rfl

@[simp] lemma setPriorityRow_response_start (id : Nat) (p : String) (q : Incident) :
    (setPriorityRow id p q).response_start_time = q.response_start_time := by
  unfold setPriorityRow; split <;> rfl

@[simp] lemma setPriorityRow_detection (id : Nat) (p : String) (q : Incident) :
    (setPriorityRow id p q).detection_time = q.detection_time := by
  unfold setPriorityRow; split <;> rfl

@[simp] lemma setPriorityRow_responder (id : Nat) (p : String) (q : Incident) :
    (setPriorityRow id p q).responder_name = q.responder_name := by
  unfold setPriorityRow; split <;> rfl

@[simp] lemma setPriorityRow_duration (id : Nat) (p : String) (q : Incident) :
    (setPriorityRow id p q).resolution_duration_seconds = q.resolution_duration_seconds := by
  unfold setPriorityRow; split <;> rfl

/-- Whatever branch `check_slow_response` takes, the store is unchanged: the
only write it contains is the INSERT of a row with a NULL
`response_start_time`, which violates the schema and is rolled back. -/
lemma check_slow_response_store (cached s : Store) (job status : String) (now : Int) :
    (check_slow_response cached s job status now).2 = s := by
  unfold check_slow_response
  split
  · split
    · rfl
    · split
      · rfl
      · rfl
  · rfl

/-- Conflict branch of `log_incident_start`: an open row was found. -/
lemma start_conflict_eq {s : Store} {job : String} {e : Incident}
    (hf : s.find? (isOpenFor job) = some e)
    (status responder priority : String) (t : Int) :
    log_incident_start s job status responder priority t = ((e.incident_id : Int), s) := by
  unfold log_incident_start
  rw [hf]

/-- Insert branch of `log_incident_start`: no open row for the job exists, so
a fresh row is appended and its id returned. -/
lemma start_insert_eq {s : Store} {job : String}
    (hf : s.find? (isOpenFor job) = none)
    (status responder priority : String) (t : Int) :
    log_incident_start s job status responder priority t =
      (((maxId s + 1 : Nat) : Int), s ++ [startRow s job status responder priority t]) := by
  have hfresh : ∀ q ∈ s, q.incident_id ≠ (startRow s job status responder priority t).incident_id :=
    fun q hq => Nat.ne_of_lt (Nat.lt_succ_of_le (mem_le_maxId hq))
  unfold log_incident_start
  rw [hf, tryInsert_of_fresh (by rfl) hfresh]

/-- Found branch of `log_incident_resolve`. -/
lemma resolve_found_eq {s : Store} {id : Nat} {e : Incident} {t0 : Int}
    (hf : s.find? (fun q => q.incident_id == id && q.resolution_time.isNone) = some e)
    (hst : e.response_start_time = some t0) (tEnd : Int) :
    log_incident_resolve s id tEnd = (true, s.map (resolveRow id tEnd t0)) := by
  unfold log_incident_resolve
  rw [hf]
  dsimp only
  rw [hst]

/-- Not-found branch of `log_incident_resolve`. -/
lemma resolve_none_eq {s : Store} {id : Nat}
    (hf : s.find? (fun q => q.incident_id == id && q.resolution_time.isNone) = none)
    (tEnd : Int) :
    log_incident_resolve s id tEnd = (false, s) := by
  unfold log_incident_resolve
  rw [hf]

/-- Open row found but with a NULL start time: the Python subtraction raises
and is caught, leaving the store unchanged. -/
lemma resolve_nostart_eq {s : Store} {id : Nat} {e : Incident}
    (hf : s.find? (fun q => q.incident_id == id && q.resolution_time.isNone) = some e)
    (hst : e.response_start_time = none) (tEnd : Int) :
    log_incident_resolve s id tEnd = (false, s) := by
  unfold log_incident_resolve
  rw [hf]
  dsimp only
  rw [hst]

/-- Openness of a row is unaffected by a priority update. -/
lemma isOpenFor_setPriorityRow (job : String) (id : Nat) (p : String) (a : Incident) :
    isOpenFor job (setPriorityRow id p a) = isOpenFor job a := by
  unfold setPriorityRow isOpenFor
  split <;> rfl

/-- A row that is open after `resolveRow` was already open before. -/
lemma isOpenFor_resolveRow_imp {job : String} {id : Nat} {t t0 : Int} {a : Incident}
    (h : isOpenFor job (resolveRow id t t0 a) = true) : isOpenFor job a = true := by
  unfold resolveRow at h
  by_cases hid : (a.incident_id == id) = true
  · rw [if_pos hid] at h
    simp [isOpenFor] at h
  · rwa [if_neg hid] at h

/-- Mapping an id-preserving row transformer keeps ids distinct. -/
lemma distinctIds_map {s : Store} {f : Incident → Incident}
    (hid : ∀ q, (f q).incident_id = q.incident_id) (h : distinctIds s) :
    distinctIds (s.map f) := by
  unfold distinctIds at h ⊢
  rw [List.pairwise_map]
  refine List.Pairwise.imp ?_ h
  intro a b hab
  rw [hid a, hid b]
  exact hab

lemma inv_start {s : Store} (h : Inv s) (job status responder priority : String)
    (t : Int) : Inv (log_incident_start s job status responder priority t).2 := by
  obtain ⟨h1, h2, h3, h4⟩ := h
  cases hf : s.find? (isOpenFor job) with
  | some e =>
    rw [start_conflict_eq hf]
    exact ⟨h1, h2, h3, h4⟩
  | none =>
    rw [start_insert_eq hf]
    have hfresh : ∀ q ∈ s, q.incident_id ≠ maxId s + 1 :=
      fun q hq => Nat.ne_of_lt (Nat.lt_succ_of_le (mem_le_maxId hq))
    refine ⟨?_, ?_, ?_, ?_⟩
    · refine List.pairwise_append.mpr ⟨h1, List.pairwise_singleton _ _, ?_⟩
      intro a ha b hb
      rw [List.mem_singleton] at hb
      subst hb
      exact hfresh a ha
    · intro r hr
      rcases List.mem_append.mp hr with hr | hr
      · exact h2 r hr
      · rw [List.mem_singleton] at hr
        subst hr
        exact ⟨rfl, rfl, rfl⟩
    · intro job2
      unfold countOpen
      rw [List.filter_append, List.length_append]
      by_cases hj : (job = job2)
      · subst hj
        have hnil : s.filter (isOpenFor job) = [] := by
          rw [List.filter_eq_nil_iff]
          exact List.find?_eq_none.mp hf
        rw [hnil]
        simp [isOpenFor, startRow]
      · have hone : List.filter (isOpenFor job2) [startRow s job status responder priority t] = [] := by
          simp [isOpenFor, startRow, hj]
        rw [hone]
        simpa using h3 job2
    · intro r hr te t0 hres hstart
      rcases List.mem_append.mp hr with hr | hr
      · exact h4 r hr te t0 hres hstart
      · rw [List.mem_singleton] at hr
        subst hr
        cases hres

lemma inv_resolve {s : Store} (h : Inv s) (id : Nat) (t : Int) :
    Inv (log_incident_resolve s id t).2 := by
  obtain ⟨h1, h2, h3, h4⟩ := h
  cases hf : s.find? (fun q => q.incident_id == id && q.resolution_time.isNone) with
  | none =>
    rw [resolve_none_eq hf]
    exact ⟨h1, h2, h3, h4⟩
  | some e =>
    have hemem : e ∈ s := List.mem_of_find?_eq_some hf
    have hepred := List.find?_some hf
    have heid : e.incident_id = id := by
      simp only [Bool.and_eq_true, beq_iff_eq] at hepred
      exact hepred.1
    cases hst : e.response_start_time with
    | none =>
      rw [resolve_nostart_eq hf hst]
      exact ⟨h1, h2, h3, h4⟩
    | some t0 =>
      rw [resolve_found_eq hf hst]
      refine ⟨?_, ?_, ?_, ?_⟩
      · exact distinctIds_map (fun q => resolveRow_incident_id id t t0 q) h1
      · intro r hr
        rcases List.mem_map.mp hr with ⟨q, hq, rfl⟩
        obtain ⟨hq1, hq2, hq3⟩ := h2 q hq
        refine ⟨?_, ?_, ?_⟩
        · rw [resolveRow_response_start, resolveRow_detection]
          exact hq1
        · rw [resolveRow_responder]
          exact hq2
        · rw [resolveRow_priority]
          exact hq3
      · intro job2
        refine Nat.le_trans ?_ (h3 job2)
        unfold countOpen
        rw [List.filter_map, List.length_map]
        refine length_filter_le_of_imp s ?_
        intro a _ ha
        exact isOpenFor_resolveRow_imp ha
      · intro r hr te t0q hres hstart
        rcases List.mem_map.mp hr with ⟨q, hq, rfl⟩
        rw [resolveRow_response_start] at hstart
        by_cases hid : (q.incident_id == id) = true
        · have hqe : q = e := eq_of_mem_of_id_eq h1 hq hemem (by rw [heid]; exact beq_iff_eq.mp hid)
          subst hqe
          unfold resolveRow at hres ⊢
          rw [if_pos hid] at hres ⊢
          have hte : some t = some te := hres
          have ht0q : some t0 = some t0q := by
            rw [hst] at hstart
            exact hstart
          obtain rfl : t = te := Option.some.inj hte
          obtain rfl : t0 = t0q := Option.some.inj ht0q
          rfl
        · unfold resolveRow at hres ⊢
          rw [if_neg hid] at hres ⊢
          exact h4 q hq te t0q hres hstart

/-- A priority update does not change which rows are open for any job. -/
lemma countOpen_update_priority (s : Store) (id : Nat) (p : String) (job : String) :
    countOpen (update_priority s id p) job = countOpen s job := by
  unfold countOpen update_priority
  rw [List.filter_map, List.length_map]
  congr 1
  refine List.filter_congr ?_
  intro a _
  exact isOpenFor_setPriorityRow job id p a

lemma inv_update_priority {s : Store} (h : Inv s) (id : Nat) (p : String) :
    Inv (update_priority s id p) := by
  obtain ⟨h1, h2, h3, h4⟩ := h
  refine ⟨?_, ?_, ?_, ?_⟩
  · exact distinctIds_map (fun q => setPriorityRow_incident_id id p q) h1
  · intro r hr
    rcases List.mem_map.mp hr with ⟨q, hq, rfl⟩
    obtain ⟨hq1, hq2, hq3⟩ := h2 q hq
    refine ⟨?_, ?_, ?_⟩
    · rw [setPriorityRow_response_start, setPriorityRow_detection]
      exact hq1
    · rw [setPriorityRow_responder]
      exact hq2
    · unfold setPriorityRow
      split
      · rfl
      · exact hq3
  · intro job2
    rw [countOpen_update_priority]
    exact h3 job2
  · intro r hr te t0 hres hstart
    rcases List.mem_map.mp hr with ⟨q, hq, rfl⟩
    rw [setPriorityRow_resolution] at hres
    rw [setPriorityRow_response_start] at hstart
    rw [setPriorityRow_duration]
    exact h4 q hq te t0 hres hstart

lemma inv_applyOp {s : Store} (h : Inv s) (op : Op) : Inv (applyOp s op) := by
  cases op with
  | start job status responder priority t => exact inv_start h job status responder priority t
  | resolve id t => exact inv_resolve h id t
  | setPriority id p => exact inv_update_priority h id p
  | slowCheck cached job status t =>
    show Inv (check_slow_response cached s job status t).2
    rw [check_slow_response_store]
    exact h

/-- The invariant holds in the empty store. -/
lemma inv_nil : Inv ([] : Store) := by
  refine ⟨List.Pairwise.nil, ?_, ?_, ?_⟩
  · intro r hr
    cases hr
  · intro job
    exact Nat.le_of_lt Nat.one_pos
  · intro r hr
    cases hr

/-- Every reachable store satisfies the invariant. -/
lemma reachable_inv {s : Store} (h : Reachable s) : Inv s := by
  induction h with
  | nil => exact inv_nil
  | step s op _ ih => exact inv_applyOp ih op

/-- The single-open-incident store arises from one respond action. -/
lemma store1_reachable : Reachable store1 := by
  have h : applyOp [] (Op.start "J" "Critical" "Alice" "P1" 0) = store1 := by decide
  rw [← h]
  exact Reachable.step [] _ Reachable.nil

/-- The resolved store arises from a respond action followed by a resolve. -/
lemma store1r_reachable : Reachable store1r := by
  have h : applyOp store1 (Op.resolve 1 8) = store1r := by decide
  rw [← h]
  exact Reachable.step store1 _ store1_reachable

/-- Under open-incident uniqueness, calling `log_incident_start` for a job
with an open row returns that row's id and leaves the store unchanged. -/
lemma start_on_open {s : Store} (hcount : ∀ job, countOpen s job ≤ 1)
    {r : Incident} (hr : r ∈ s) (hropen : r.resolution_time = none)
    (status responder priority : String) (t : Int) :
    log_incident_start s r.job_name status responder priority t =
      ((r.incident_id : Int), s) := by
  have hrpred : isOpenFor r.job_name r = true := by
    simp [isOpenFor, hropen]
  have hsome : (s.find? (isOpenFor r.job_name)).isSome := by
    rw [List.find?_isSome]
    exact ⟨r, hr, hrpred⟩
  obtain ⟨e, he⟩ := Option.isSome_iff_exists.mp hsome
  have hemem := List.mem_of_find?_eq_some he
  have hepred := List.find?_some he
  have her : e = r := by
    have hm1 : e ∈ s.filter (isOpenFor r.job_name) := List.mem_filter.mpr ⟨hemem, hepred⟩
    have hm2 : r ∈ s.filter (isOpenFor r.job_name) := List.mem_filter.mpr ⟨hr, hrpred⟩
    exact eq_of_mem_of_length_le_one (hcount r.job_name) hm1 hm2
  rw [start_conflict_eq he, her]

/-- Membership in an `insort` result. -/
lemma mem_insort {x z : Job} : ∀ l : List Job, z ∈ insort x l ↔ z = x ∨ z ∈ l := by
  intro l
  induction l with
  | nil => simp [insort]
  | cons y ys ih =>
    unfold insort
    by_cases h : jobKey y < jobKey x
    · rw [if_pos h]
      simp only [List.mem_cons, ih]
      tauto
    · rw [if_neg h]
      simp only [List.mem_cons]

/-- Inserting preserves sortedness by the severity key. -/
lemma sorted_insort {x : Job} : ∀ {l : List Job},
    l.Sorted (fun a b => jobKey a ≤ jobKey b) →
    (insort x l).Sorted (fun a b => jobKey a ≤ jobKey b) := by
  intro l
  induction l with
  | nil =>
    intro _
    simp [insort]
  | cons y ys ih =>
    intro h
    rw [List.sorted_cons] at h
    obtain ⟨hy, hys⟩ := h
    unfold insort
    by_cases hk : jobKey y < jobKey x
    · rw [if_pos hk, List.sorted_cons]
      refine ⟨?_, ih hys⟩
      intro b hb
      rcases (mem_insort ys).mp hb with rfl | hb
      · exact Nat.le_of_lt hk
      · exact hy b hb
    · rw [if_neg hk, List.sorted_cons]
      refine ⟨?_, List.sorted_cons.mpr ⟨hy, hys⟩⟩
      intro b hb
      rcases List.mem_cons.mp hb with rfl | hb
      · exact Nat.le_of_not_lt hk
      · exact Nat.le_trans (Nat.le_of_not_lt hk) (hy b hb)

/-- Helper: filtering a cons whose head satisfies the predicate. -/
lemma filter_cons_pos (p : Job → Bool) (a : Job) (h : p a = true) :
    ∀ l : List Job, (a :: l).filter p = a :: l.filter p := by
  intro l
  simp [List.filter_cons, h]

/-- Helper: filtering a cons whose head fails the predicate. -/
lemma filter_cons_neg (p : Job → Bool) (a : Job) (h : p a = false) :
    ∀ l : List Job, (a :: l).filter p = l.filter p := by
  intro l
  simp [List.filter_cons, h]

/-- Stability of `insort`: restricted to any key value, insertion puts the
new element in front exactly when it carries that key, because it is placed
before the first element whose key is not smaller. -/
lemma filter_insort (k : Nat) (x : Job) : ∀ l : List Job,
    (insort x l).filter (fun j => jobKey j == k) =
      if (jobKey x == k) = true then x :: l.filter (fun j => jobKey j == k)
      else l.filter (fun j => jobKey j == k) := by
  intro l
  induction l with
  | nil =>
    unfold insort
    by_cases hx : (jobKey x == k) = true
    · rw [if_pos hx, filter_cons_pos (fun j => jobKey j == k) x hx]
    · rw [if_neg hx, filter_cons_neg (fun j => jobKey j == k) x (Bool.of_not_eq_true hx)]
  | cons y ys ih =>
    unfold insort
    by_cases hlt : jobKey y < jobKey x
    · rw [if_pos hlt]
      by_cases hx : (jobKey x == k) = true
      · have hxk : jobKey x = k := by simpa using hx
        have hyne : jobKey y ≠ k := by omega
        have hyk : (jobKey y == k) = false := beq_eq_false_iff_ne.mpr hyne
        simp only [filter_cons_neg (fun j => jobKey j == k) y hyk, ih, if_pos hx]
      · by_cases hy : (jobKey y == k) = true
        · simp only [filter_cons_pos (fun j => jobKey j == k) y hy, ih, if_neg hx]
        · simp only [filter_cons_neg (fun j => jobKey j == k) y (Bool.of_not_eq_true hy),
            ih, if_neg hx]
    · rw [if_neg hlt]
      by_cases hx : (jobKey x == k) = true
      · simp only [filter_cons_pos (fun j => jobKey j == k) x hx, if_pos hx]
      · simp only [filter_cons_neg (fun j => jobKey j == k) x (Bool.of_not_eq_true hx),
          if_neg hx]

/-- The stable sort is sorted by the severity key. -/
lemma sorted_sortJobs (l : List Job) :
    (sortJobs l).Sorted (fun a b => jobKey a ≤ jobKey b) := by
  induction l with
  | nil => simp [sortJobs]
  | cons x xs ih => exact sorted_insort ih

/-- Stability of the sort: the subsequence of any fixed key value is exactly
the input subsequence of that key value. -/
lemma filter_sortJobs (k : Nat) (l : List Job) :
    (sortJobs l).filter (fun j => jobKey j == k) =
      l.filter (fun j => jobKey j == k) := by
  induction l with
  | nil => rfl
  | cons x xs ih =>
    show (insort x (sortJobs xs)).filter _ = _
    rw [filter_insort]
    by_cases hx : (jobKey x == k) = true
    · rw [if_pos hx, ih, filter_cons_pos (fun j => jobKey j == k) x hx]
    · rw [if_neg hx, ih, filter_cons_neg (fun j => jobKey j == k) x (Bool.of_not_eq_true hx)]

/-- C1: open-incident uniqueness.  In every store reachable by the program
operations (incident creation, resolution, priority update, and the
slow-response check with its insert attempt) at most one incidents row per
job has a NULL resolution_time, and when an open incident exists for a job a
further creation call adds no row and returns that incident id. -/
theorem C1_open_incident_unique (s : Store) (h : Reachable s) :
    (∀ job, countOpen s job ≤ 1) ∧
    (∀ r ∈ s, r.resolution_time = none →
      ∀ (status responder priority : String) (t : Int),
        log_incident_start s r.job_name status responder priority t =
          ((r.incident_id : Int), s)) := by
  obtain ⟨_, _, h3, _⟩ := reachable_inv h
  refine ⟨h3, ?_⟩
  intro r hr hropen status responder priority t
  exact start_on_open h3 hr hropen status responder priority t

/-- Witness for C1 at the concrete one-incident store. -/
theorem C1_witness :
    countOpen store1 "J" ≤ 1 ∧
    log_incident_start store1 "J" "Error" "Bob" "P2" 5 = (1, store1) := by
  have h := C1_open_incident_unique store1 store1_reachable
  exact ⟨h.1 "J", h.2 row1 (List.mem_singleton.mpr rfl) rfl "Error" "Bob" "P2" 5⟩

/-- C2: a `log_incident_start` call while an open incident exists for the job
is an idempotent no-op: it returns the pre-existing incident id and leaves
the incidents table unchanged. -/
theorem C2_start_conflict_noop (s : Store) (h : Reachable s) (r : Incident)
    (hr : r ∈ s) (hropen : r.resolution_time = none)
    (status responder priority : String) (t : Int) :
    log_incident_start s r.job_name status responder priority t =
      ((r.incident_id : Int), s) := by
  obtain ⟨_, _, h3, _⟩ := reachable_inv h
  exact start_on_open h3 hr hropen status responder priority t

/-- Witness for C2 at the concrete one-incident store. -/
theorem C2_witness :
    log_incident_start store1 "J" "Warning" "Carol" "P4" 9 = (1, store1) :=
  C2_start_conflict_noop store1 store1_reachable row1 (List.mem_singleton.mpr rfl) rfl
    "Warning" "Carol" "P4" 9

/-- C3: resolve idempotence.  On an open incident the first
`log_incident_resolve` returns True and sets the resolution fields with the
computed duration; a second call on the same id returns False without raising
and leaves the store exactly as after the first call. -/
theorem C3_resolve_idempotent (s : Store) (h : Reachable s) (r : Incident)
    (hr : r ∈ s) (hropen : r.resolution_time = none) (t1 t2 : Int) :
    (log_incident_resolve s r.incident_id t1).1 = true ∧
    (∃ q ∈ (log_incident_resolve s r.incident_id t1).2,
      q.incident_id = r.incident_id ∧ q.resolution_time = some t1 ∧
        q.resolution_duration_seconds = some (t1 - r.detection_time)) ∧
    (log_incident_resolve (log_incident_resolve s r.incident_id t1).2 r.incident_id t2).1
      = false ∧
    (log_incident_resolve (log_incident_resolve s r.incident_id t1).2 r.incident_id t2).2
      = (log_incident_resolve s r.incident_id t1).2 := by
  obtain ⟨h1, h2, _, _⟩ := reachable_inv h
  have hrpred : (r.incident_id == r.incident_id && r.resolution_time.isNone) = true := by
    simp [hropen]
  have hsome :
      (s.find? (fun q => q.incident_id == r.incident_id && q.resolution_time.isNone)).isSome := by
    rw [List.find?_isSome]
    exact ⟨r, hr, hrpred⟩
  obtain ⟨e, he⟩ := Option.isSome_iff_exists.mp hsome
  have hemem := List.mem_of_find?_eq_some he
  have hepred := List.find?_some he
  have heid : e.incident_id = r.incident_id := by
    simp only [Bool.and_eq_true, beq_iff_eq] at hepred
    exact hepred.1
  have her : e = r := eq_of_mem_of_id_eq h1 hemem hr heid
  have he2 : s.find? (fun q => q.incident_id == r.incident_id && q.resolution_time.isNone)
      = some r := by
    rw [her] at he
    exact he
  obtain ⟨hst, _, _⟩ := h2 r hr
  rw [resolve_found_eq he2 hst t1]
  dsimp only
  have hnone : (s.map (resolveRow r.incident_id t1 r.detection_time)).find?
      (fun q => q.incident_id == r.incident_id && q.resolution_time.isNone) = none := by
    rw [List.find?_eq_none]
    intro x hx hxpred
    rcases List.mem_map.mp hx with ⟨q, hq, rfl⟩
    simp only [Bool.and_eq_true, beq_iff_eq, resolveRow_incident_id] at hxpred
    obtain ⟨hid2, hopen2⟩ := hxpred
    unfold resolveRow at hopen2
    rw [if_pos (beq_iff_eq.mpr hid2)] at hopen2
    simp at hopen2
  rw [resolve_none_eq hnone t2]
  refine ⟨rfl, ?_, rfl, rfl⟩
  refine ⟨resolveRow r.incident_id t1 r.detection_time r, List.mem_map_of_mem _ hr, ?_, ?_, ?_⟩
  · exact resolveRow_incident_id _ _ _ _
  · unfold resolveRow
    rw [if_pos (beq_self_eq_true _)]
  · unfold resolveRow
    rw [if_pos (beq_self_eq_true _)]

/-- Witness for C3: resolve incident 1 of the concrete store at time 8, then
again at time 9. -/
theorem C3_witness :
    (log_incident_resolve store1 1 8).1 = true ∧
    (∃ q ∈ (log_incident_resolve store1 1 8).2,
      q.incident_id = 1 ∧ q.resolution_time = some 8 ∧
        q.resolution_duration_seconds = some (8 - 0)) ∧
    (log_incident_resolve (log_incident_resolve store1 1 8).2 1 9).1 = false ∧
    (log_incident_resolve (log_incident_resolve store1 1 8).2 1 9).2
      = (log_incident_resolve store1 1 8).2 :=
  C3_resolve_idempotent store1 store1_reachable row1 (List.mem_singleton.mpr rfl) rfl 8 9

/-- C4: duration round-trip.  In every reachable store, any row with both
`resolution_time` and `response_start_time` set stores exactly their
difference in `resolution_duration_seconds` (times are whole seconds, at
which granularity the code's truncation is exact). -/
theorem C4_duration_consistent (s : Store) (h : Reachable s) (r : Incident)
    (hr : r ∈ s) (te t0 : Int) (hres : r.resolution_time = some te)
    (hstart : r.response_start_time = some t0) :
    r.resolution_duration_seconds = some (te - t0) := by
  obtain ⟨_, _, _, h4⟩ := reachable_inv h
  exact h4 r hr te t0 hres hstart

/-- Witness for C4 at the concrete resolved store. -/
theorem C4_witness : row1r.resolution_duration_seconds = some (8 - 0) :=
  C4_duration_consistent store1r store1r_reachable row1r (List.mem_singleton.mpr rfl)
    8 0 rfl rfl

/-- C6: the slow-response check is a pure read of the incident store: for
every cached snapshot, live store, job, status and time it returns the store
unchanged, inserting no row and mutating no field (its only INSERT omits the
NOT NULL `response_start_time` column and is rejected by the schema). -/
theorem C6_check_slow_response_pure (cached s : Store) (job status : String)
    (now : Int) :
    (check_slow_response cached s job status now).2 = s :=
  check_slow_response_store cached s job status now

/-- C9: incident ids are unique in every reachable store, and every operation
either leaves the sequence of stored ids unchanged or extends it with the
single fresh id `maxId + 1`, strictly greater than every existing id; no
operation rewrites an existing row's id. -/
theorem C9_incident_ids_monotone (s : Store) (op : Op) (h : Reachable s) :
    (s.map (fun r => r.incident_id)).Nodup ∧
    ((applyOp s op).map (fun r => r.incident_id) = s.map (fun r => r.incident_id) ∨
      ((applyOp s op).map (fun r => r.incident_id) =
        s.map (fun r => r.incident_id) ++ [maxId s + 1] ∧
       ∀ r ∈ s, r.incident_id < maxId s + 1)) := by
  obtain ⟨h1, _, _, _⟩ := reachable_inv h
  constructor
  · show (s.map (fun r => r.incident_id)).Pairwise (· ≠ ·)
    rw [List.pairwise_map]
    exact h1
  · cases op with
    | start job status responder priority t =>
      cases hf : s.find? (isOpenFor job) with
      | some e =>
        left
        show ((log_incident_start s job status responder priority t).2).map _ = _
        rw [start_conflict_eq hf]
      | none =>
        right
        constructor
        · show ((log_incident_start s job status responder priority t).2).map _ = _
          rw [start_insert_eq hf]
          dsimp only
          rw [List.map_append]
          rfl
        · intro r hr
          exact Nat.lt_succ_of_le (mem_le_maxId hr)
    | resolve id t =>
      left
      show ((log_incident_resolve s id t).2).map _ = _
      cases hf : s.find? (fun q => q.incident_id == id && q.resolution_time.isNone) with
      | none => rw [resolve_none_eq hf]
      | some e =>
        cases hst : e.response_start_time with
        | none => rw [resolve_nostart_eq hf hst]
        | some t0 =>
          rw [resolve_found_eq hf hst]
          dsimp only
          rw [List.map_map]
          exact List.map_congr_left (fun a _ => resolveRow_incident_id id t t0 a)
    | setPriority id p =>
      left
      show (update_priority s id p).map _ = _
      unfold update_priority
      rw [List.map_map]
      exact List.map_congr_left (fun a _ => setPriorityRow_incident_id id p a)
    | slowCheck cached job status t =>
      left
      show ((check_slow_response cached s job status t).2).map _ = _
      rw [check_slow_response_store]

/-- Witness for C9: starting a second incident on the concrete store assigns
the fresh id 2. -/
theorem C9_witness :
    (store1.map (fun r => r.incident_id)).Nodup ∧
    ((applyOp store1 (Op.start "K" "Error" "Bob" "P2" 3)).map (fun r => r.incident_id)
        = store1.map (fun r => r.incident_id) ∨
      ((applyOp store1 (Op.start "K" "Error" "Bob" "P2" 3)).map (fun r => r.incident_id)
          = store1.map (fun r => r.incident_id) ++ [maxId store1 + 1] ∧
       ∀ r ∈ store1, r.incident_id < maxId store1 + 1)) :=
  C9_incident_ids_monotone store1 (Op.start "K" "Error" "Bob" "P2" 3) store1_reachable

/-- C10: a row inserted by `log_incident_start` is claimed from the moment of
creation: responder, priority and response_start_time are all non-null, with
`response_start_time = detection_time`, so the respond operation never
produces an open-but-unclaimed incident. -/
theorem C10_created_row_claimed (s : Store) (job status responder priority : String)
    (t : Int) (hf : s.find? (isOpenFor job) = none) :
    (log_incident_start s job status responder priority t).2 =
      s ++ [startRow s job status responder priority t] ∧
    (startRow s job status responder priority t).responder_name = some responder ∧
    (startRow s job status responder priority t).priority = some priority ∧
    (startRow s job status responder priority t).response_start_time =
      some (startRow s job status responder priority t).detection_time ∧
    (startRow s job status responder priority t).detection_time = t ∧
    (startRow s job status responder priority t).resolution_time = none := by
  refine ⟨?_, rfl, rfl, rfl, rfl, rfl⟩
  rw [start_insert_eq hf]

/-- Witness for C10: responding to job "K" on the concrete store. -/
theorem C10_witness :
    (log_incident_start store1 "K" "Error" "Bob" "P2" 3).2 =
      store1 ++ [startRow store1 "K" "Error" "Bob" "P2" 3] ∧
    (startRow store1 "K" "Error" "Bob" "P2" 3).responder_name = some "Bob" ∧
    (startRow store1 "K" "Error" "Bob" "P2" 3).priority = some "P2" ∧
    (startRow store1 "K" "Error" "Bob" "P2" 3).response_start_time =
      some (startRow store1 "K" "Error" "Bob" "P2" 3).detection_time ∧
    (startRow store1 "K" "Error" "Bob" "P2" 3).detection_time = 3 ∧
    (startRow store1 "K" "Error" "Bob" "P2" 3).resolution_time = none :=
  C10_created_row_claimed store1 "K" "Error" "Bob" "P2" 3 (by decide)

/-- C5 counterexample: with a consistent cache (the snapshot equal to the
live store), an open incident for job "J" detected 25 seconds ago with NO
responder does NOT flag, because the check suppresses any job present in the
active-incident dictionary and never consults the responder column; the
claimed characterisation (flag iff open, unclaimed, older than 20s) fails at
this input. -/
theorem C5_counterexample :
    (check_slow_response slowStore slowStore "J" "Critical" 25).1 = false ∧
    (∃ r ∈ slowStore, r.job_name = "J" ∧ r.resolution_time = none ∧
      r.responder_name = none ∧ 25 - r.detection_time > 20) := by
  constructor
  · decide
  · exact ⟨_, List.mem_singleton.mpr rfl, rfl, rfl, rfl, by decide⟩

/-- C5 (amended): the check flags a job iff the status is Critical or Error
after trimming and lowercasing, the job is absent from the cached
active-incident snapshot, and the live store's most recent open incident for
the job was detected more than 20 seconds ago.  The responder column is
never consulted, so with a fresh (consistent) cache no job ever flags. -/
theorem C5_slow_flag_iff (cached s : Store) (job status : String) (now : Int) :
    (check_slow_response cached s job status now).1 = true ↔
      ((pyLower (pyStrip status) = "critical" ∨ pyLower (pyStrip status) = "error") ∧
       (activeJobs cached).contains job = false ∧
       ∃ d, latestOpenDetection s job = some d ∧ now - d > 20) := by
  unfold check_slow_response
  by_cases hcrit :
      (pyLower (pyStrip status) == "critical" || pyLower (pyStrip status) == "error") = true
  · rw [if_pos hcrit]
    have hcrit2 : pyLower (pyStrip status) = "critical" ∨ pyLower (pyStrip status) = "error" := by
      simpa using hcrit
    by_cases hact : ((activeJobs cached).contains job) = true
    · rw [if_pos hact]
      dsimp only
      constructor
      · intro hfalse
        cases hfalse
      · rintro ⟨_, hc, _⟩
        rw [hact] at hc
        cases hc
    · rw [if_neg hact]
      have hact2 : (activeJobs cached).contains job = false := Bool.of_not_eq_true hact
      cases hd : latestOpenDetection s job with
      | some d =>
        dsimp only
        constructor
        · intro hdec
          exact ⟨hcrit2, hact2, d, rfl, of_decide_eq_true hdec⟩
        · rintro ⟨_, _, d2, hd2, hgt⟩
          obtain rfl : d = d2 := Option.some.inj hd2
          exact decide_eq_true hgt
      | none =>
        rw [show tryInsert s (slowRow s job status now) = none from rfl]
        dsimp only
        constructor
        · intro hfalse
          cases hfalse
        · rintro ⟨_, _, d2, hd2, _⟩
          cases hd2
  · rw [if_neg hcrit]
    dsimp only
    constructor
    · intro hfalse
      cases hfalse
    · rintro ⟨hc, _, _⟩
      refine absurd ?_ hcrit
      rcases hc with hc | hc <;> simp [hc]

/-- C7 counterexample: two non-responding jobs of equal severity whose names
are in reverse alphabetical order keep their input order; the ranker does not
break severity ties by job name as claimed. -/
theorem C7_counterexample :
    rank_jobs [] [jobW1, jobW2] = [jobW1, jobW2] ∧
    jobKey jobW1 = jobKey jobW2 ∧
    jobW1.name = "B" ∧ jobW2.name = "A" ∧
    rank_jobs [] [jobW1, jobW2] ≠ [jobW2, jobW1] := by decide

/-- C7 (amended): `rank_jobs` lists the jobs with a currently open incident
first, preserving their input order, followed by the remaining jobs sorted
ascending by severity rank with ties keeping input order (a stable sort, not
a name tie-break); on the spec's example the order is [C, B, A, D]. -/
theorem C7_rank_characterized :
    rank_jobs storeC [jobA, jobB, jobC, jobD] = [jobC, jobB, jobA, jobD] ∧
    ∀ (s : Store) (jobs : List Job),
      rank_jobs s jobs =
        jobs.filter (fun j => (activeJobs s).contains j.name) ++
          sortJobs (jobs.filter (fun j => !(activeJobs s).contains j.name)) ∧
      (sortJobs (jobs.filter (fun j => !(activeJobs s).contains j.name))).Sorted
        (fun a b => jobKey a ≤ jobKey b) ∧
      ∀ k : Nat,
        (sortJobs (jobs.filter (fun j => !(activeJobs s).contains j.name))).filter
            (fun j => jobKey j == k) =
          (jobs.filter (fun j => !(activeJobs s).contains j.name)).filter
            (fun j => jobKey j == k) := by
  refine ⟨by decide, ?_⟩
  intro s jobs
  exact ⟨rfl, sorted_sortJobs _, fun k => filter_sortJobs k _⟩

/-- C8 counterexample: the priority UPDATE has no resolution guard: on a
store whose only incident is already resolved it still rewrites the priority
instead of rejecting the edit. -/
theorem C8_counterexample :
    rowResolved.resolution_time = some 10 ∧
    update_priority [rowResolved] 1 "P2" ≠ [rowResolved] ∧
    (∃ q ∈ update_priority [rowResolved] 1 "P2", q.priority = some "P2") := by
  decide

/-- C8 (amended): the priority update applies unconditionally to the row with
the matching incident_id — open or resolved — and leaves every other row
unchanged; no `IncidentClosed` rejection exists at the store level. -/
theorem C8_priority_update_unconditional (s : Store) (id : Nat) (p : String)
    (r : Incident) (hr : r ∈ s) :
    (r.incident_id = id → { r with priority := some p } ∈ update_priority s id p) ∧
    (r.incident_id ≠ id → r ∈ update_priority s id p) := by
  constructor
  · intro hid
    have hrow : setPriorityRow id p r = { r with priority := some p } := by
      unfold setPriorityRow
      rw [if_pos (beq_iff_eq.mpr hid)]
    rw [← hrow]
    exact List.mem_map_of_mem _ hr
  · intro hid
    have hrow : setPriorityRow id p r = r := by
      unfold setPriorityRow
      rw [if_neg (by simpa using hid)]
    rw [← hrow]
    exact List.mem_map_of_mem _ hr

/-- Witness for C8 (amended) at the resolved store. -/
theorem C8_witness :
    { rowResolved with priority := some "P2" } ∈ update_priority [rowResolved] 1 "P2" :=
  (C8_priority_update_unconditional [rowResolved] 1 "P2" rowResolved
    (List.mem_singleton.mpr rfl)).1 rfl

end RiskDash
